import Mathlib

/-!
# Verification of the GOL differential test harness

Shallow embedding of the repository's three source files:

* `GOL_tb.cpp` — the software oracle (`calc_game_state`), the bit-serial
  link (`apply_stimulus`, `capture_game_state`), the scorer
  (`score_game_state`), and the differential stepping loop of `main`;
* `GOL_GUI.cpp` / `GOL_GUI.h` — the replay controller (`cycle_game_states`).

The Verilated circuit `VGOL` is not part of the repository sources; the
test bench drives it only through its pins (`clock`, `Shift`, `DataIn`,
`DataOut`, `NextTimeTick`, `eval`).  The serial-link functions are
therefore embedded generically over an abstract pin-level model
(`DutModel`), and a concrete shift-register model, modelled from the
spec, instantiates it where a claim speaks about the circuit itself.
-/

/-- An n×m game state: `vector<vector<bool>>` in the source. -/
abbrev Grid := List (List Bool)

/-- Column count `current_state[0].size()` used throughout the source. -/
def numCols (g : Grid) : Nat := (g.headD []).length

/-- Cell access `g[i][j]`; the source only ever indexes in bounds, so the
default value is never observable in the translated theorems. -/
def getCell (g : Grid) (i j : Nat) : Bool := (g.getD i []).getD j false

/-- The bounds-and-liveness test of one iteration of the neighbour loop in
`count_live_neighbors` (GOL_tb.cpp lines 121-129): the probed position
`(row+i, col+j)` is inside the grid and holds a live cell. -/
def inBoundsAlive (g : Grid) (row col : Nat) (off : Int × Int) : Prop :=
  0 ≤ (row : Int) + off.1 ∧ (row : Int) + off.1 < (g.length : Int) ∧
  0 ≤ (col : Int) + off.2 ∧ (col : Int) + off.2 < (numCols g : Int) ∧
  getCell g ((row : Int) + off.1).toNat ((col : Int) + off.2).toNat = true

instance (g : Grid) (row col : Nat) (off : Int × Int) :
    Decidable (inBoundsAlive g row col off) := by
  unfold inBoundsAlive; infer_instance

/-- Contribution of one neighbour offset to the live count: `1` exactly
when the probe is in bounds and alive. -/
def nb (g : Grid) (row col : Nat) (off : Int × Int) : Nat :=
  if inBoundsAlive g row col off then 1 else 0

/-- `count_live_neighbors` from GOL_tb.cpp: the 3×3 offset loop unrolled
into its eight iterations ((0,0) is skipped by the `continue`). -/
def count_live_neighbors (g : Grid) (row col : Nat) : Nat :=
  nb g row col (-1, -1) + nb g row col (-1, 0) + nb g row col (-1, 1) +
  nb g row col (0, -1) + nb g row col (0, 1) +
  nb g row col (1, -1) + nb g row col (1, 0) + nb g row col (1, 1)

/-- The eight neighbour offsets visited by the loop (as a finite set,
for relating the loop to the spec's neighbourhood). -/
def neighborFinset : Finset (Int × Int) :=
  {(-1, -1), (-1, 0), (-1, 1), (0, -1), (0, 1), (1, -1), (1, 0), (1, 1)}

/-- `calc_game_state` from GOL_tb.cpp: the software oracle computing the
next generation.  A live cell survives with 2 or 3 live neighbours; a
dead cell is born with exactly 3. -/
def calc_game_state (g : Grid) : Grid :=
  (List.range g.length).map (fun i =>
    (List.range (numCols g)).map (fun j =>
      let live := count_live_neighbors g i j
      if getCell g i j then live == 2 || live == 3 else live == 3))

/-- The spec's formulation of the neighbour count: the number of live
cells among the in-bounds positions at Chebyshev distance exactly 1 from
`(i, j)` — the "up-to-8 in-bounds neighbors", with no wraparound. -/
def specLiveNeighbors (g : Grid) (i j : Nat) : Nat :=
  (((Finset.range g.length) ×ˢ (Finset.range (numCols g))).filter
    (fun p => p ≠ (i, j) ∧ ((p.1 : Int) - (i : Int)).natAbs ≤ 1 ∧
      ((p.2 : Int) - (j : Int)).natAbs ≤ 1 ∧ getCell g p.1 p.2 = true)).card

/-- `score_game_state` from GOL_tb.cpp: 1 when the grids agree, 0 (after
logging "ERROR") when they differ. -/
def score_game_state (expected_state dut_state : Grid) : Nat :=
  if expected_state = dut_state then 1 else 0

/-! ## The pin-level circuit interface

The test bench sees `VGOL` only through its pins.  `Pins` holds the four
input pins the bench drives; a `DutModel` gives the black box a state
type, a combinational `DataOut`, and the effect of one `eval()` at the
current pin values. -/

/-- The circuit's input pins as driven by the test bench. -/
structure Pins where
  clock : Bool
  Shift : Bool
  DataIn : Bool
  NextTimeTick : Bool
deriving DecidableEq, Repr

/-- An abstract pin-level circuit: `eval()` semantics and the
combinational `DataOut` output. -/
structure DutModel (σ : Type) where
  evalStep : σ → Pins → σ
  dataOut : σ → Bool

/-- Test-bench side state: the black-box circuit state, the currently
driven input pins, and the simulated time `sim_time`. -/
structure TBState (σ : Type) where
  dut : σ
  pins : Pins
  simTime : Nat
deriving DecidableEq, Repr

/-- `updateRTL` from GOL_tb.cpp: evaluate the RTL at the current pins and
advance simulated time by one unit (the trace dump is pure output and is
not modelled). -/
def updateRTL {σ : Type} (M : DutModel σ) (st : TBState σ) : TBState σ :=
  { st with dut := M.evalStep st.dut st.pins, simTime := st.simTime + 1 }

/-- One full clock pulse as performed everywhere in the bench: drive
`clock` high, `updateRTL`, drive `clock` low, `updateRTL`. -/
def clockPulse {σ : Type} (M : DutModel σ) (st : TBState σ) : TBState σ :=
  let st1 := updateRTL M { st with pins := { st.pins with clock := true } }
  updateRTL M { st1 with pins := { st1.pins with clock := false } }

/-- The body of the double loop of `apply_stimulus`: drive `DataIn` with
each successive bit and pulse the clock once per bit. -/
def loadBits {σ : Type} (M : DutModel σ) (st : TBState σ) : List Bool → TBState σ
  | [] => st
  | b :: rest =>
      loadBits M (clockPulse M { st with pins := { st.pins with DataIn := b } }) rest

/-- `apply_stimulus` from GOL_tb.cpp: `Shift=1`; shift the grid in, in
reverse row-major order (`i` and `j` both descending, which for a
rectangular grid is the reverse of the row-major flattening); then
`Shift=0` and one more clock pulse. -/
def apply_stimulus {σ : Type} (M : DutModel σ) (st : TBState σ) (stimulus : Grid) :
    TBState σ :=
  let st1 := { st with pins := { st.pins with Shift := true } }
  let st2 := loadBits M st1 stimulus.flatten.reverse
  let st3 := { st2 with pins := { st2.pins with Shift := false } }
  clockPulse M st3

/-- The body of the double loop of `capture_game_state`: read `DataOut`
into the next cell, drive the same bit back into `DataIn`, pulse the
clock; returns the bits in the order they were read. -/
def capture_bits {σ : Type} (M : DutModel σ) (st : TBState σ) :
    Nat → List Bool × TBState σ
  | 0 => ([], st)
  | k + 1 =>
      let b := M.dataOut st.dut
      let st1 := clockPulse M { st with pins := { st.pins with DataIn := b } }
      let rec_result := capture_bits M st1 k
      (b :: rec_result.1, rec_result.2)

/-- Rebuild a rows×cols grid from a row-major bit list. -/
def unflatten : Nat → Nat → List Bool → Grid
  | 0, _, _ => []
  | n + 1, m, l => l.take m :: unflatten n m (l.drop m)

/-- `capture_game_state` from GOL_tb.cpp: `Shift=1`; read `rows*cols`
bits in the same reverse row-major order, recirculating each bit into
`DataIn`; then `Shift=0` and one more clock pulse.  The bits were read
last-cell-first, so the reconstructed grid is the reverse of the read
order, re-chunked row-major. -/
def capture_game_state {σ : Type} (M : DutModel σ) (st : TBState σ)
    (rows cols : Nat) : Grid × TBState σ :=
  let st1 := { st with pins := { st.pins with Shift := true } }
  let p := capture_bits M st1 (rows * cols)
  let st3 := { p.2 with pins := { p.2.pins with Shift := false } }
  (unflatten rows cols p.1.reverse, clockPulse M st3)

/-! ## The circuit, modelled from the spec

The RTL (`VGOL`) is not among the repository's source files.  Modelled
from the spec: the circuit holds its n×m grid in a shift register "whose
head is the last cell"; with `Shift=1` every rising clock edge shifts
`DataIn` in at the tail while `DataOut` exposes the head; with `Shift=0`
a rising edge with `NextTimeTick` high advances the stored grid by one
Game-of-Life generation, and otherwise holds state.  Rising edges are
detected by remembering the previously evaluated clock level. -/

/-- Modelled from the spec: the state of the absent `VGOL` circuit — the
serial shift register plus the last evaluated clock level. -/
structure SRState where
  sr : List Bool
  prevClock : Bool
deriving DecidableEq, Repr

/-- Modelled from the spec: one generation step on the register contents.
The register stores the grid as the reverse of its row-major flattening,
so it is unflattened, advanced with the oracle rule, and re-flattened. -/
def golStep (rows cols : Nat) (sr : List Bool) : List Bool :=
  ((calc_game_state (unflatten rows cols sr.reverse)).flatten).reverse

/-- Modelled from the spec: the pin-level semantics of the absent `VGOL`
circuit as a rows×cols-cell serial shift register. -/
def shiftRegModel (rows cols : Nat) : DutModel SRState where
  evalStep s p :=
    if p.clock && !s.prevClock then
      if p.Shift then { sr := s.sr.tail ++ [p.DataIn], prevClock := p.clock }
      else if p.NextTimeTick then { sr := golStep rows cols s.sr, prevClock := p.clock }
      else { s with prevClock := p.clock }
    else { s with prevClock := p.clock }
  dataOut s := s.sr.headD false

/-- A trace-recording instantiation of the pin interface: the "circuit
state" is the list of pin snapshots passed to `eval()`, in order. -/
def traceModel : DutModel (List Pins) where
  evalStep tr p := tr ++ [p]
  dataOut _ := false

/-- A degenerate stand-in circuit whose `DataOut` is stuck high and whose
state never changes; used to drive the harness into non-convergent runs. -/
def constTrue : DutModel Unit where
  evalStep _ _ := ()
  dataOut _ := true

/-- The two `eval()` pin snapshots produced by one full clock pulse at
pin values `p`. -/
def pulsePins (p : Pins) : List Pins :=
  [{ p with clock := true }, { p with clock := false }]

/-- The pin-snapshot trace the load protocol is specified to produce:
one full clock pulse per bit in reverse row-major order with `Shift`
high, then one latch pulse with `Shift` low (during which `DataIn` still
holds the last shifted bit). -/
def expectedLoadTrace (g : Grid) (p0 : Pins) : List Pins :=
  let bits := g.flatten.reverse
  ((bits.map (fun b => pulsePins { p0 with Shift := true, DataIn := b })).flatten) ++
    pulsePins { p0 with Shift := false, DataIn := bits.getLastD p0.DataIn }

/-! ## The differential stepping loop (`main`, GOL_tb.cpp lines 340-370) -/

/-- Outcome of one test case's stepping loop: every captured generation
in order, the 1-based generation at which convergence was detected (if
any), and the 1-based generations at which the scorer logged a
mismatch. -/
structure RunOutcome where
  states : List Grid
  convergedAt : Option Nat
  errors : List Nat
deriving DecidableEq, Repr

/-- The `NextTimeTick` pulse at the top of each loop iteration: drive the
pin high for one full clock pulse, then low for one more. -/
def nextTimeTickPulse {σ : Type} (M : DutModel σ) (st : TBState σ) : TBState σ :=
  let st1 := clockPulse M { st with pins := { st.pins with NextTimeTick := true } }
  clockPulse M { st1 with pins := { st1.pins with NextTimeTick := false } }

/-- The generation loop of `main`: tick, capture, record; stop declaring
convergence when the capture equals the previous predicted grid;
otherwise advance the oracle prediction, score (recording the 1-based
iteration number on mismatch) and continue until the budget runs out. -/
def stepping_loop {σ : Type} (M : DutModel σ) (rows cols : Nat) :
    Nat → Nat → TBState σ → Grid → List Grid → List Nat → RunOutcome × TBState σ
  | 0, _, st, _, acc, errs => (⟨acc, none, errs⟩, st)
  | fuel + 1, c, st, gs, acc, errs =>
      let st1 := nextTimeTickPulse M st
      let p := capture_game_state M st1 rows cols
      let acc' := acc ++ [p.1]
      if p.1 = gs then (⟨acc', some (c + 1), errs⟩, p.2)
      else
        let gs' := calc_game_state gs
        let errs' := if score_game_state p.1 gs' = 0 then errs ++ [c + 1] else errs
        stepping_loop M rows cols fuel (c + 1) p.2 gs' acc' errs'

/-- One test case of `main`: load the stimulus, then run the stepping
loop with the fixed 50-generation budget of this run profile. -/
def run_test {σ : Type} (M : DutModel σ) (rows cols : Nat) (st : TBState σ)
    (stimulus : Grid) : RunOutcome × TBState σ :=
  stepping_loop M rows cols 50 0 (apply_stimulus M st stimulus) stimulus [] []

/-! ## The replay controller (`cycle_game_states`, GOL_GUI.cpp)

The controller's pixel geometry (button rectangles, hit testing) is
delegated to the drawing library; events are embedded carrying the
result of that hit test.  `sf::Clock` values are embedded as the
absolute time at which each clock was last restarted, with every event
carrying the absolute time at which it is handled. -/

/-- Which control a left press landed on (`getGlobalBounds().contains`). -/
inductive HitTarget where
  | iter
  | next
  | cool
  | thumb
  | outside
deriving DecidableEq, Repr

/-- One unit of work of the UI loop: an input event (press with its hit
target, release with whether it landed on the iterate button, pointer
move, window close), or one pass through the post-poll hold check. -/
inductive GEvent where
  | press (tgt : HitTarget) (t : Nat)
  | release (onIter : Bool) (t : Nat)
  | move (y : Int) (t : Nat)
  | frame (t : Nat)
  | closed
deriving DecidableEq, Repr

/-- The controller's mutable state from GOL_GUI.cpp lines 100-106:
`current_state_index`, `isButtonHeld`, the restart times of `holdClock`
and `clickClock`, `simulation_pace`, `isSliderHeld`. -/
structure GuiState where
  idx : Nat
  isButtonHeld : Bool
  holdStart : Nat
  clickStart : Nat
  simulation_pace : Int
  isSliderHeld : Bool
deriving DecidableEq, Repr

/-- State at entry of the UI loop: index 0, nothing held, pace 50, both
clocks started at construction time 0. -/
def initGuiState : GuiState :=
  { idx := 0, isButtonHeld := false, holdStart := 0, clickStart := 0,
    simulation_pace := 50, isSliderHeld := false }

/-- `current_state_index++` followed by the wrap to 0 at the end of the
recorded sequence (`if (current_state_index >= game_states.size())`). -/
def advanceIdx (n i : Nat) : Nat :=
  if n ≤ i + 1 then 0 else i + 1

/-- The pace computed while dragging the slider (GOL_GUI.cpp lines
189-196): clamp the pointer's y to the track extent [100, 400], then
`20 + int(((y-100)/300) * (500-20))`.  The source's `float` arithmetic
is idealised as exact rational arithmetic; the cast to `int` truncates,
which on the clamped (non-negative) range is the floor. -/
def simPaceOf (y : Int) : Int :=
  let new_y : Int := max 100 (min 400 y)
  20 + Int.floor ((((new_y - 100 : Int) : ℚ) / 300) * (500 - 20))

/-- Result of handling one `GEvent`: the next controller state, or the
value `cycle_game_states` returns when the window closes (0 on close, 1
for a new random game, 2 for the special game). -/
inductive StepResult where
  | cont (s : GuiState)
  | exit (code : Nat)
deriving DecidableEq, Repr

/-- One step of the UI loop of GOL_GUI.cpp: the event dispatch (lines
113-198) and, for `frame`, the post-poll hold-advance check (line 200). -/
def guiStep (n : Nat) (s : GuiState) : GEvent → StepResult
  | .press tgt t =>
      match tgt with
      | .iter => .cont { s with isButtonHeld := true, holdStart := t, clickStart := t }
      | .next => .exit 1
      | .cool => .exit 2
      | .thumb => .cont { s with isSliderHeld := true }
      | .outside => .cont s
  | .release onIter t =>
      let s1 := { s with isSliderHeld := false }
      if onIter then
        let s2 := { s1 with isButtonHeld := false }
        if t - s.clickStart < 500 then .cont { s2 with idx := advanceIdx n s2.idx }
        else .cont s2
      else .cont s1
  | .move y _ =>
      if s.isSliderHeld then .cont { s with simulation_pace := simPaceOf y } else .cont s
  | .frame t =>
      if s.isButtonHeld = true ∧ 500 ≤ t - s.clickStart ∧
          s.simulation_pace ≤ ((t - s.holdStart : Nat) : Int) then
        .cont { s with idx := advanceIdx n s.idx, holdStart := t }
      else .cont s
  | .closed => .exit 0

/-- Run the UI loop over a list of events/frames; processing stops, with
the remaining events discarded, when the window closes. -/
def processEvents (n : Nat) (s : GuiState) : List GEvent → GuiState × Option Nat
  | [] => (s, none)
  | e :: rest =>
      match guiStep n s e with
      | .cont s' => processEvents n s' rest
      | .exit code => (s, some code)

/-- Events that neither touch the iterate control nor close the window,
with any frame among them happening strictly before the given deadline. -/
def isQuietEvent (deadline : Nat) : GEvent → Bool
  | .frame t => t < deadline
  | .move _ _ => true
  | _ => false

/-- Frames and pointer moves only: no press, release, or close. -/
def isPassiveEvent : GEvent → Bool
  | .frame _ => true
  | .move _ _ => true
  | _ => false

/-- Events of the simpler test-bench replay loop (GOL_tb.cpp lines
263-291): a press on the iterate button, a press on the new-game button
(which closes the window), a press elsewhere, or closing the window. -/
inductive TbEvent where
  | pressIter
  | pressNext
  | pressOutside
  | closed
deriving DecidableEq, Repr

/-- The index evolution of the test-bench variant of `cycle_game_states`:
only a press on the iterate button advances (with the same wrap); the
new-game press and the close event return, discarding later events. -/
def tbProcess (n : Nat) (i : Nat) : List TbEvent → Nat
  | [] => i
  | .pressIter :: rest => tbProcess n (advanceIdx n i) rest
  | .pressNext :: _ => i
  | .closed :: _ => i
  | .pressOutside :: rest => tbProcess n i rest

/-! ## Proofs: the oracle (claim C1) -/

lemma sum_nb_eq (g : Grid) (row col : Nat) :
    ∑ off ∈ neighborFinset, nb g row col off = count_live_neighbors g row col := by
  simp only [neighborFinset]
  rw [Finset.sum_insert (by decide), Finset.sum_insert (by decide),
    Finset.sum_insert (by decide), Finset.sum_insert (by decide),
    Finset.sum_insert (by decide), Finset.sum_insert (by decide),
    Finset.sum_insert (by decide), Finset.sum_singleton]
  unfold count_live_neighbors
  ring

lemma mem_neighborFinset (x y : Int) :
    (x, y) ∈ neighborFinset ↔
      (-1 ≤ x ∧ x ≤ 1 ∧ -1 ≤ y ∧ y ≤ 1 ∧ ¬(x = 0 ∧ y = 0)) := by
  simp only [neighborFinset, Finset.mem_insert, Finset.mem_singleton, Prod.mk.injEq]
  omega

lemma specLiveNeighbors_eq_count (g : Grid) (i j : Nat) :
    specLiveNeighbors g i j = count_live_neighbors g i j := by
  have himg : (((Finset.range g.length) ×ˢ (Finset.range (numCols g))).filter
      (fun p => p ≠ (i, j) ∧ ((p.1 : Int) - (i : Int)).natAbs ≤ 1 ∧
        ((p.2 : Int) - (j : Int)).natAbs ≤ 1 ∧ getCell g p.1 p.2 = true)) =
      (neighborFinset.filter (inBoundsAlive g i j)).image
        (fun off => (((i : Int) + off.1).toNat, ((j : Int) + off.2).toNat)) := by
    ext ⟨a, b⟩
    simp only [Finset.mem_filter, Finset.mem_product, Finset.mem_range, Finset.mem_image,
      ne_eq, Prod.mk.injEq, not_and]
    constructor
    · rintro ⟨⟨ha, hb⟩, hne, hdi, hdj, halive⟩
      have hne' : ¬(a = i ∧ b = j) := fun hp => hne hp.1 hp.2
      refine ⟨((a : Int) - i, (b : Int) - j), ⟨?_, ?_⟩, by omega, by omega⟩
      · rw [mem_neighborFinset]
        omega
      · simp only [inBoundsAlive]
        refine ⟨by omega, by omega, by omega, by omega, ?_⟩
        have e1 : ((i : Int) + ((a : Int) - i)).toNat = a := by omega
        have e2 : ((j : Int) + ((b : Int) - j)).toNat = b := by omega
        rw [e1, e2]
        exact halive
    · rintro ⟨⟨di, dj⟩, ⟨hmem, hP⟩, heq1, heq2⟩
      rw [mem_neighborFinset] at hmem
      simp only [inBoundsAlive] at hP
      obtain ⟨h1, h2, h3, h4, h5⟩ := hP
      rw [heq1, heq2] at h5
      refine ⟨⟨by omega, by omega⟩, by omega, by omega, by omega, h5⟩
  have hinj : Set.InjOn (fun off : Int × Int =>
      (((i : Int) + off.1).toNat, ((j : Int) + off.2).toNat))
      ↑(neighborFinset.filter (inBoundsAlive g i j)) := by
    rintro ⟨d1, d2⟩ h1 ⟨e1, e2⟩ h2 heq
    simp only [Finset.coe_filter, Set.mem_setOf_eq, inBoundsAlive] at h1 h2
    simp only [Prod.mk.injEq] at heq
    obtain ⟨heqa, heqb⟩ := heq
    have hc : d1 = e1 ∧ d2 = e2 := by
      constructor <;> omega
    simp [hc.1, hc.2]
  rw [specLiveNeighbors, himg, Finset.card_image_of_injOn hinj, Finset.card_filter]
  rw [show (∑ off ∈ neighborFinset, if inBoundsAlive g i j off then 1 else 0) =
    ∑ off ∈ neighborFinset, nb g i j off from rfl]
  exact sum_nb_eq g i j

lemma getD_range_map {α : Type} (f : Nat → α) (n i : Nat) (d : α) (h : i < n) :
    ((List.range n).map f).getD i d = f i := by
  rw [List.getD_eq_getElem _ _ (by simpa using h)]
  simp

lemma getCell_calc (g : Grid) (i j : Nat) (hi : i < g.length) (hj : j < numCols g) :
    getCell (calc_game_state g) i j =
      (if getCell g i j
       then count_live_neighbors g i j == 2 || count_live_neighbors g i j == 3
       else count_live_neighbors g i j == 3) := by
  conv_lhs => rw [getCell, calc_game_state]
  rw [getD_range_map _ _ _ _ hi, getD_range_map _ _ _ _ hj]

/-- C1: for every non-empty grid and every in-bounds cell (i,j), the
Oracle's next-generation function sets the output cell alive iff (the
cell is alive and has exactly 2 or 3 live neighbours) or (the cell is
dead and has exactly 3 live neighbours), where the neighbour count is
the number of live cells among the up-to-8 in-bounds neighbours of
(i,j) — out-of-bounds neighbours absent, no wraparound.  The corner
instance of the claim is the witness below. -/
theorem oracle_rule_correct (g : Grid) (i j : Nat)
    (hi : i < g.length) (hj : j < numCols g) :
    getCell (calc_game_state g) i j =
      (if getCell g i j
       then decide (specLiveNeighbors g i j = 2 ∨ specLiveNeighbors g i j = 3)
       else decide (specLiveNeighbors g i j = 3)) := by
  rw [getCell_calc g i j hi hj, specLiveNeighbors_eq_count g i j]
  cases hgc : getCell g i j <;> simp only [if_true, if_false, Bool.false_eq_true]
  · rw [Bool.eq_iff_iff]
    simp
  · rw [Bool.eq_iff_iff]
    simp

/-- Witness for C1, at the corner case the claim singles out: in the
grid [[0,1],[1,1]] the dead corner cell (0,0) has exactly 3 in-bounds
live neighbours and is alive in the next generation. -/
theorem oracle_rule_correct_witness :
    ((0 < ([[false, true], [true, true]] : Grid).length ∧
        0 < numCols ([[false, true], [true, true]] : Grid)) ∧
      specLiveNeighbors [[false, true], [true, true]] 0 0 = 3 ∧
      getCell [[false, true], [true, true]] 0 0 = false ∧
      getCell (calc_game_state [[false, true], [true, true]]) 0 0 = true) ∧
    getCell (calc_game_state [[false, true], [true, true]]) 0 0 =
      (if getCell [[false, true], [true, true]] 0 0
       then decide (specLiveNeighbors [[false, true], [true, true]] 0 0 = 2 ∨
          specLiveNeighbors [[false, true], [true, true]] 0 0 = 3)
       else decide (specLiveNeighbors [[false, true], [true, true]] 0 0 = 3)) :=
  ⟨by decide, oracle_rule_correct [[false, true], [true, true]] 0 0 (by decide) (by decide)⟩

/-! ## Proofs: the serial link over the shift-register model -/

lemma pulse_shift (r c : Nat) (sr : List Bool) (ck di ntt : Bool) (t : Nat) :
    clockPulse (shiftRegModel r c) ⟨⟨sr, false⟩, ⟨ck, true, di, ntt⟩, t⟩ =
      ⟨⟨sr.tail ++ [di], false⟩, ⟨false, true, di, ntt⟩, t + 2⟩ := rfl

lemma pulse_hold (r c : Nat) (sr : List Bool) (ck di : Bool) (t : Nat) :
    clockPulse (shiftRegModel r c) ⟨⟨sr, false⟩, ⟨ck, false, di, false⟩, t⟩ =
      ⟨⟨sr, false⟩, ⟨false, false, di, false⟩, t + 2⟩ := rfl

lemma pulse_tick (r c : Nat) (sr : List Bool) (ck di : Bool) (t : Nat) :
    clockPulse (shiftRegModel r c) ⟨⟨sr, false⟩, ⟨ck, false, di, true⟩, t⟩ =
      ⟨⟨golStep r c sr, false⟩, ⟨false, false, di, true⟩, t + 2⟩ := rfl

lemma loadBits_shift (r c : Nat) (xs : List Bool) :
    ∀ (sr : List Bool) (di ntt : Bool) (t : Nat), xs.length ≤ sr.length →
    loadBits (shiftRegModel r c) ⟨⟨sr, false⟩, ⟨false, true, di, ntt⟩, t⟩ xs =
      ⟨⟨sr.drop xs.length ++ xs, false⟩, ⟨false, true, xs.getLastD di, ntt⟩,
        t + 2 * xs.length⟩ := by
  induction xs with
  | nil =>
      intro sr di ntt t _
      simp [loadBits]
  | cons b xs ih =>
      intro sr di ntt t h
      match sr with
      | s0 :: stl =>
        have hxs : xs.length ≤ stl.length := by
          simpa using Nat.lt_succ_iff.mp (Nat.lt_of_lt_of_le (Nat.lt_succ_self _) (by simpa using h))
        rw [loadBits]
        rw [show ({ (⟨⟨s0 :: stl, false⟩, ⟨false, true, di, ntt⟩, t⟩ : TBState SRState) with
            pins := { (⟨false, true, di, ntt⟩ : Pins) with DataIn := b } }) =
          (⟨⟨s0 :: stl, false⟩, ⟨false, true, b, ntt⟩, t⟩ : TBState SRState) from rfl]
        rw [pulse_shift]
        have h' : xs.length ≤ (stl ++ [b]).length := by
          simp
          omega
        rw [show ((s0 :: stl).tail) = stl from rfl]
        rw [ih (stl ++ [b]) b ntt (t + 2) h']
        simp only [TBState.mk.injEq, SRState.mk.injEq, Pins.mk.injEq, List.length_cons,
          List.drop_succ_cons, List.drop_append_of_le_length hxs, List.getLastD_cons,
          List.append_assoc, List.singleton_append, and_true, true_and]
        omega

lemma capture_bits_shift (r c : Nat) (k : Nat) :
    ∀ (sr : List Bool) (di ntt : Bool) (t : Nat), k ≤ sr.length →
    capture_bits (shiftRegModel r c) ⟨⟨sr, false⟩, ⟨false, true, di, ntt⟩, t⟩ k =
      (sr.take k,
       ⟨⟨sr.drop k ++ sr.take k, false⟩, ⟨false, true, (sr.take k).getLastD di, ntt⟩,
         t + 2 * k⟩) := by
  induction k with
  | zero =>
      intro sr di ntt t _
      simp [capture_bits]
  | succ k ih =>
      intro sr di ntt t h
      match sr with
      | s0 :: stl =>
        have hk : k ≤ stl.length := by simpa using h
        have h' : k ≤ (stl ++ [s0]).length := by
          simp
          omega
        rw [capture_bits]
        rw [show (shiftRegModel r c).dataOut ⟨s0 :: stl, false⟩ = s0 from rfl]
        rw [show ({ (⟨⟨s0 :: stl, false⟩, ⟨false, true, di, ntt⟩, t⟩ : TBState SRState) with
            pins := { (⟨false, true, di, ntt⟩ : Pins) with DataIn := s0 } }) =
          (⟨⟨s0 :: stl, false⟩, ⟨false, true, s0, ntt⟩, t⟩ : TBState SRState) from rfl]
        rw [pulse_shift]
        rw [show ((s0 :: stl).tail) = stl from rfl]
        rw [ih (stl ++ [s0]) s0 ntt (t + 2) h']
        simp only [Prod.mk.injEq, TBState.mk.injEq, SRState.mk.injEq, Pins.mk.injEq,
          List.length_cons, List.take_succ_cons, List.drop_succ_cons,
          List.take_append_of_le_length hk, List.drop_append_of_le_length hk,
          List.getLastD_cons, List.append_assoc, List.singleton_append, and_true, true_and]
        omega

lemma flatten_length_rect (g : Grid) (c : Nat) (hrect : ∀ row ∈ g, row.length = c) :
    g.flatten.length = g.length * c := by
  induction g with
  | nil => simp
  | cons row rest ih =>
      simp only [List.flatten_cons, List.length_append, List.length_cons]
      rw [hrect row (by simp), ih (fun r hr => hrect r (by simp [hr]))]
      ring

lemma unflatten_flatten (g : Grid) (c : Nat) (hrect : ∀ row ∈ g, row.length = c) :
    unflatten g.length c g.flatten = g := by
  induction g with
  | nil => simp [unflatten]
  | cons row rest ih =>
      have hr : row.length = c := hrect row (by simp)
      rw [show (row :: rest).length = rest.length + 1 from rfl, unflatten,
        show (row :: rest).flatten = row ++ rest.flatten from rfl,
        List.take_left' hr, List.drop_left' hr, ih (fun r hrm => hrect r (by simp [hrm]))]

lemma capture_shift_model (r c : Nat) (sr : List Bool) (sh di : Bool) (t : Nat)
    (hlen : r * c ≤ sr.length) :
    capture_game_state (shiftRegModel r c) ⟨⟨sr, false⟩, ⟨false, sh, di, false⟩, t⟩ r c =
      (unflatten r c (sr.take (r * c)).reverse,
       ⟨⟨sr.drop (r * c) ++ sr.take (r * c), false⟩,
        ⟨false, false, (sr.take (r * c)).getLastD di, false⟩, t + 2 * (r * c) + 2⟩) := by
  simp only [capture_game_state]
  rw [show ({ (⟨⟨sr, false⟩, ⟨false, sh, di, false⟩, t⟩ : TBState SRState) with
      pins := { (⟨false, sh, di, false⟩ : Pins) with Shift := true } }) =
    (⟨⟨sr, false⟩, ⟨false, true, di, false⟩, t⟩ : TBState SRState) from rfl]
  rw [capture_bits_shift r c (r * c) sr di false t hlen]
  rw [show ({ (⟨⟨sr.drop (r * c) ++ sr.take (r * c), false⟩,
      ⟨false, true, (sr.take (r * c)).getLastD di, false⟩, t + 2 * (r * c)⟩ : TBState SRState) with
      pins := { (⟨false, true, (sr.take (r * c)).getLastD di, false⟩ : Pins) with Shift := false } }) =
    (⟨⟨sr.drop (r * c) ++ sr.take (r * c), false⟩,
      ⟨false, false, (sr.take (r * c)).getLastD di, false⟩, t + 2 * (r * c)⟩ : TBState SRState) from rfl]
  rw [pulse_hold]

lemma apply_stimulus_shift (r c : Nat) (g : Grid) (sr : List Bool) (sh di : Bool) (t : Nat)
    (hlen : sr.length = g.flatten.length) :
    apply_stimulus (shiftRegModel r c) ⟨⟨sr, false⟩, ⟨false, sh, di, false⟩, t⟩ g =
      ⟨⟨g.flatten.reverse, false⟩,
       ⟨false, false, g.flatten.reverse.getLastD di, false⟩,
       t + 2 * g.flatten.length + 2⟩ := by
  simp only [apply_stimulus]
  rw [show ({ (⟨⟨sr, false⟩, ⟨false, sh, di, false⟩, t⟩ : TBState SRState) with
      pins := { (⟨false, sh, di, false⟩ : Pins) with Shift := true } }) =
    (⟨⟨sr, false⟩, ⟨false, true, di, false⟩, t⟩ : TBState SRState) from rfl]
  rw [loadBits_shift r c g.flatten.reverse sr di false t (by simp [hlen])]
  have hdrop : sr.drop g.flatten.reverse.length = [] := by
    apply List.drop_eq_nil_of_le
    simp [hlen]
  rw [hdrop, List.nil_append]
  rw [show ({ (⟨⟨g.flatten.reverse, false⟩,
      ⟨false, true, g.flatten.reverse.getLastD di, false⟩,
      t + 2 * g.flatten.reverse.length⟩ : TBState SRState) with
      pins := { (⟨false, true, g.flatten.reverse.getLastD di, false⟩ : Pins) with Shift := false } }) =
    (⟨⟨g.flatten.reverse, false⟩,
      ⟨false, false, g.flatten.reverse.getLastD di, false⟩,
      t + 2 * g.flatten.reverse.length⟩ : TBState SRState) from rfl]
  rw [pulse_hold]
  simp

/-- C4: capturing a rows×cols grid from the shift-register circuit is
non-destructive — after the rows*cols recirculating pulses plus the
final `Shift=0` latch pulse, the register holds exactly what it held
before — and the captured grid is the register contents read head-first
into reverse row-major positions (i.e. the unflattening of the reversed
register). -/
theorem capture_nondestructive (rows cols : Nat) (sr : List Bool) (sh di : Bool) (t : Nat)
    (hlen : sr.length = rows * cols) :
    (capture_game_state (shiftRegModel rows cols)
        ⟨⟨sr, false⟩, ⟨false, sh, di, false⟩, t⟩ rows cols).2.dut.sr = sr ∧
    (capture_game_state (shiftRegModel rows cols)
        ⟨⟨sr, false⟩, ⟨false, sh, di, false⟩, t⟩ rows cols).1 =
      unflatten rows cols sr.reverse := by
  rw [capture_shift_model rows cols sr sh di t (le_of_eq hlen.symm)]
  rw [← hlen, List.drop_length, List.take_length, List.nil_append]
  exact ⟨rfl, rfl⟩

/-- Witness for C4: a concrete 2×1 capture returns the register contents
and leaves the register unchanged. -/
theorem capture_nondestructive_witness :
    (([true, false] : List Bool).length = 2 * 1 ∧
      unflatten 2 1 ([true, false] : List Bool).reverse = [[false], [true]]) ∧
    ((capture_game_state (shiftRegModel 2 1)
        ⟨⟨[true, false], false⟩, ⟨false, false, false, false⟩, 0⟩ 2 1).2.dut.sr =
      [true, false] ∧
     (capture_game_state (shiftRegModel 2 1)
        ⟨⟨[true, false], false⟩, ⟨false, false, false, false⟩, 0⟩ 2 1).1 =
      unflatten 2 1 ([true, false] : List Bool).reverse) :=
  ⟨by decide, capture_nondestructive 2 1 [true, false] false false 0 (by decide)⟩

/-- C5: loading a rectangular n×m grid (n,m ≥ 1) into the shift-register
circuit and immediately capturing n×m back (no generation ticks in
between) reproduces the grid exactly — the reverse row-major orders of
load and capture are mutually consistent. -/
theorem serial_roundtrip (r c : Nat) (G : Grid) (sr : List Bool) (sh di : Bool) (t : Nat)
    (hrect : ∀ row ∈ G, row.length = c) (hrows : G.length = r)
    (hr : 1 ≤ r) (hc : 1 ≤ c) (hlen : sr.length = r * c) :
    (capture_game_state (shiftRegModel r c)
        (apply_stimulus (shiftRegModel r c) ⟨⟨sr, false⟩, ⟨false, sh, di, false⟩, t⟩ G)
        r c).1 = G := by
  have hflat : G.flatten.length = r * c := by
    rw [flatten_length_rect G c hrect, hrows]
  rw [apply_stimulus_shift r c G sr sh di t (by rw [hlen, hflat])]
  rw [capture_shift_model r c G.flatten.reverse false
    (G.flatten.reverse.getLastD di) (t + 2 * G.flatten.length + 2) (by simp [hflat])]
  have hrl : G.flatten.reverse.length = r * c := by simp [hflat]
  rw [← hrl, List.take_length, List.reverse_reverse, ← hrows,
    unflatten_flatten G c hrect]

/-- Witness for C5: a concrete 2×2 load/capture round trip. -/
theorem serial_roundtrip_witness :
    ((∀ row ∈ ([[true, false], [false, true]] : Grid), row.length = 2) ∧
      ([[true, false], [false, true]] : Grid).length = 2 ∧
      ([false, false, false, false] : List Bool).length = 2 * 2) ∧
    (capture_game_state (shiftRegModel 2 2)
        (apply_stimulus (shiftRegModel 2 2)
          ⟨⟨[false, false, false, false], false⟩, ⟨false, false, false, false⟩, 0⟩
          [[true, false], [false, true]]) 2 2).1 = [[true, false], [false, true]] :=
  ⟨by decide, serial_roundtrip 2 2 [[true, false], [false, true]]
    [false, false, false, false] false false 0 (by decide) (by decide)
    (by decide) (by decide) (by decide)⟩

/-! ## Proofs: the load protocol (claim C3) -/

lemma loadBits_evalStep_only {σ : Type} (f : σ → Pins → σ) (d1 d2 : σ → Bool)
    (xs : List Bool) : ∀ (st : TBState σ),
    loadBits ⟨f, d1⟩ st xs = loadBits ⟨f, d2⟩ st xs := by
  induction xs with
  | nil => intro st; rfl
  | cons b rest ih =>
      intro st
      rw [loadBits, loadBits]
      exact ih _

lemma loadBits_trace (xs : List Bool) : ∀ (tr : List Pins) (sh di ntt : Bool) (t : Nat),
    loadBits traceModel ⟨tr, ⟨false, sh, di, ntt⟩, t⟩ xs =
      ⟨tr ++ (xs.map (fun b => pulsePins ⟨false, sh, b, ntt⟩)).flatten,
       ⟨false, sh, xs.getLastD di, ntt⟩, t + 2 * xs.length⟩ := by
  induction xs with
  | nil =>
      intro tr sh di ntt t
      simp [loadBits]
  | cons b rest ih =>
      intro tr sh di ntt t
      rw [loadBits]
      rw [show (clockPulse traceModel
          { (⟨tr, ⟨false, sh, di, ntt⟩, t⟩ : TBState (List Pins)) with
            pins := { (⟨false, sh, di, ntt⟩ : Pins) with DataIn := b } }) =
        (⟨tr ++ [⟨true, sh, b, ntt⟩, ⟨false, sh, b, ntt⟩], ⟨false, sh, b, ntt⟩, t + 2⟩ :
          TBState (List Pins)) from by
        simp [clockPulse, updateRTL, traceModel]]
      rw [ih]
      simp only [TBState.mk.injEq, Pins.mk.injEq, List.map_cons, List.flatten_cons,
        List.length_cons, List.getLastD_cons, List.append_assoc, true_and, and_true]
      refine ⟨by simp [pulsePins], by omega⟩

/-- C3: the load operation's full behaviour.  First conjunct: the state
after `apply_stimulus` does not depend on the circuit's `DataOut`
function at all (the operation is write-only).  Second conjunct: the
trace of `eval()` pin snapshots it produces is exactly: with `Shift=1`,
one full clock pulse (high then low, one time step each) per cell in
reverse row-major order with `DataIn` holding that cell's value, then
`Shift=0` and exactly one more full clock pulse; simulated time advances
by two units per cell plus two. -/
theorem load_protocol :
    (∀ (σ : Type) (f : σ → Pins → σ) (d1 d2 : σ → Bool) (st : TBState σ) (g : Grid),
      apply_stimulus ⟨f, d1⟩ st g = apply_stimulus ⟨f, d2⟩ st g) ∧
    (∀ (g : Grid) (sh di ntt : Bool) (t : Nat),
      apply_stimulus traceModel ⟨[], ⟨false, sh, di, ntt⟩, t⟩ g =
        ⟨expectedLoadTrace g ⟨false, sh, di, ntt⟩,
         ⟨false, false, g.flatten.reverse.getLastD di, ntt⟩,
         t + 2 * g.flatten.length + 2⟩) := by
  constructor
  · intro σ f d1 d2 st g
    simp only [apply_stimulus]
    rw [loadBits_evalStep_only f d1 d2]
    rfl
  · intro g sh di ntt t
    simp only [apply_stimulus]
    rw [show ({ (⟨[], ⟨false, sh, di, ntt⟩, t⟩ : TBState (List Pins)) with
        pins := { (⟨false, sh, di, ntt⟩ : Pins) with Shift := true } }) =
      (⟨[], ⟨false, true, di, ntt⟩, t⟩ : TBState (List Pins)) from rfl]
    rw [loadBits_trace g.flatten.reverse [] true di ntt t]
    rw [show ({ (⟨[] ++ (g.flatten.reverse.map
          (fun b => pulsePins ⟨false, true, b, ntt⟩)).flatten,
        ⟨false, true, g.flatten.reverse.getLastD di, ntt⟩,
        t + 2 * g.flatten.reverse.length⟩ : TBState (List Pins)) with
        pins := { (⟨false, true, g.flatten.reverse.getLastD di, ntt⟩ : Pins) with
          Shift := false } }) =
      (⟨[] ++ (g.flatten.reverse.map
          (fun b => pulsePins ⟨false, true, b, ntt⟩)).flatten,
        ⟨false, false, g.flatten.reverse.getLastD di, ntt⟩,
        t + 2 * g.flatten.reverse.length⟩ : TBState (List Pins)) from rfl]
    rw [show (∀ (TR : List Pins) (lb : Bool) (tf : Nat),
        clockPulse traceModel ⟨TR, ⟨false, false, lb, ntt⟩, tf⟩ =
          ⟨TR ++ [⟨true, false, lb, ntt⟩, ⟨false, false, lb, ntt⟩],
           ⟨false, false, lb, ntt⟩, tf + 2⟩) from by
      intro TR lb tf
      simp [clockPulse, updateRTL, traceModel]]
    simp only [expectedLoadTrace, pulsePins, TBState.mk.injEq, Pins.mk.injEq,
      List.nil_append, List.length_reverse, true_and, and_true]

/-! ## Proofs: the stepping loop (claims C2, C6, C7) -/

lemma ntt_pulse_shift (r c : Nat) (sr : List Bool) (ck ntt di : Bool) (t : Nat) :
    nextTimeTickPulse (shiftRegModel r c) ⟨⟨sr, false⟩, ⟨ck, false, di, ntt⟩, t⟩ =
      ⟨⟨golStep r c sr, false⟩, ⟨false, false, di, false⟩, t + 4⟩ := rfl

lemma golStep_fixed (r c : Nat) (G : Grid) (hrect : ∀ row ∈ G, row.length = c)
    (hrows : G.length = r) (hfix : calc_game_state G = G) :
    golStep r c G.flatten.reverse = G.flatten.reverse := by
  rw [golStep, List.reverse_reverse, ← hrows, unflatten_flatten G c hrect, hfix]

/-- C2: convergence detection.  First conjunct: whenever the grid
captured after the generation tick equals the previous predicted grid,
the stepping loop stops at once, reporting convergence at that (1-based)
generation with the error log untouched — convergence is not an error.
Second conjunct: a stimulus that is a fixed point of the oracle, driven
on the (spec-modelled) correct shift-register circuit, converges at
generation 1 with exactly one captured state and no errors. -/
theorem convergence_detection :
    (∀ (σ : Type) (M : DutModel σ) (rows cols fuel c : Nat) (st : TBState σ)
        (gs : Grid) (acc : List Grid) (errs : List Nat),
      (capture_game_state M (nextTimeTickPulse M st) rows cols).1 = gs →
      stepping_loop M rows cols (fuel + 1) c st gs acc errs =
        (⟨acc ++ [gs], some (c + 1), errs⟩,
         (capture_game_state M (nextTimeTickPulse M st) rows cols).2)) ∧
    (∀ (r c : Nat) (G : Grid) (sr : List Bool) (sh di : Bool) (t : Nat),
      (∀ row ∈ G, row.length = c) → G.length = r → 1 ≤ r → 1 ≤ c →
      sr.length = r * c → calc_game_state G = G →
      (run_test (shiftRegModel r c) r c ⟨⟨sr, false⟩, ⟨false, sh, di, false⟩, t⟩ G).1 =
        ⟨[G], some 1, []⟩) := by
  constructor
  · intro σ M rows cols fuel c st gs acc errs hcap
    rw [stepping_loop]
    simp only [hcap, if_pos]
  · intro r c G sr sh di t hrect hrows _ _ hlen hfix
    have hflat : G.flatten.length = r * c := by
      rw [flatten_length_rect G c hrect, hrows]
    rw [run_test]
    rw [apply_stimulus_shift r c G sr sh di t (by rw [hlen, hflat])]
    rw [show (50 : Nat) = 49 + 1 from rfl, stepping_loop]
    rw [ntt_pulse_shift]
    rw [golStep_fixed r c G hrect hrows hfix]
    rw [capture_shift_model r c G.flatten.reverse false
      (G.flatten.reverse.getLastD di) (t + 2 * G.flatten.length + 2 + 4) (by simp [hflat])]
    have hrl : G.flatten.reverse.length = r * c := by simp [hflat]
    rw [← hrl, List.take_length, List.reverse_reverse, ← hrows,
      unflatten_flatten G c hrect]
    simp

/-- Witness for C2: the 2×2 still-life block is a fixed point of the
oracle and the run over the correct circuit converges at generation 1. -/
theorem convergence_detection_witness :
    ((∀ row ∈ ([[true, true], [true, true]] : Grid), row.length = 2) ∧
      ([[true, true], [true, true]] : Grid).length = 2 ∧
      ([false, false, false, false] : List Bool).length = 2 * 2 ∧
      calc_game_state [[true, true], [true, true]] = [[true, true], [true, true]]) ∧
    (run_test (shiftRegModel 2 2) 2 2
        ⟨⟨[false, false, false, false], false⟩, ⟨false, false, false, false⟩, 0⟩
        [[true, true], [true, true]]).1 =
      ⟨[[[true, true], [true, true]]], some 1, []⟩ :=
  ⟨by decide, convergence_detection.2 2 2 [[true, true], [true, true]]
    [false, false, false, false] false false 0 (by decide) (by decide)
    (by decide) (by decide) (by decide) (by decide)⟩

lemma stepping_loop_len_le {σ : Type} (M : DutModel σ) (rows cols : Nat) (fuel : Nat) :
    ∀ (c : Nat) (st : TBState σ) (gs : Grid) (acc : List Grid) (errs : List Nat),
    (stepping_loop M rows cols fuel c st gs acc errs).1.states.length ≤
      acc.length + fuel := by
  induction fuel with
  | zero =>
      intro c st gs acc errs
      simp [stepping_loop]
  | succ fuel ih =>
      intro c st gs acc errs
      simp only [stepping_loop]
      by_cases h : (capture_game_state M (nextTimeTickPulse M st) rows cols).1 = gs
      · rw [if_pos h]
        simp
      · rw [if_neg h]
        refine le_trans (ih (c + 1) _ _ _ _) ?_
        simp
        omega

lemma stepping_loop_len_of_none {σ : Type} (M : DutModel σ) (rows cols : Nat) (fuel : Nat) :
    ∀ (c : Nat) (st : TBState σ) (gs : Grid) (acc : List Grid) (errs : List Nat),
    (stepping_loop M rows cols fuel c st gs acc errs).1.convergedAt = none →
    (stepping_loop M rows cols fuel c st gs acc errs).1.states.length =
      acc.length + fuel := by
  induction fuel with
  | zero =>
      intro c st gs acc errs _
      simp [stepping_loop]
  | succ fuel ih =>
      intro c st gs acc errs hnone
      simp only [stepping_loop] at hnone ⊢
      by_cases h : (capture_game_state M (nextTimeTickPulse M st) rows cols).1 = gs
      · rw [if_pos h] at hnone
        simp at hnone
      · rw [if_neg h] at hnone ⊢
        rw [ih (c + 1) _ _ _ _ hnone]
        simp
        omega

/-- C6: a divergence never terminates the stepping loop.  First
conjunct: whenever the captured grid differs from the previous predicted
grid, the loop at non-zero budget continues into the next generation —
with the mismatch recorded in the error log exactly when the scorer
returns 0 — rather than stopping.  Second conjunct: a run that never
converged executed its entire generation budget; nothing but convergence
or budget exhaustion ends the loop. -/
theorem divergence_nonfatal :
    (∀ (σ : Type) (M : DutModel σ) (rows cols fuel c : Nat) (st : TBState σ)
        (gs : Grid) (acc : List Grid) (errs : List Nat),
      (capture_game_state M (nextTimeTickPulse M st) rows cols).1 ≠ gs →
      stepping_loop M rows cols (fuel + 1) c st gs acc errs =
        stepping_loop M rows cols fuel (c + 1)
          (capture_game_state M (nextTimeTickPulse M st) rows cols).2
          (calc_game_state gs)
          (acc ++ [(capture_game_state M (nextTimeTickPulse M st) rows cols).1])
          (if score_game_state (capture_game_state M (nextTimeTickPulse M st) rows cols).1
              (calc_game_state gs) = 0 then errs ++ [c + 1] else errs)) ∧
    (∀ (σ : Type) (M : DutModel σ) (rows cols fuel c : Nat) (st : TBState σ)
        (gs : Grid) (acc : List Grid) (errs : List Nat),
      (stepping_loop M rows cols fuel c st gs acc errs).1.convergedAt = none →
      (stepping_loop M rows cols fuel c st gs acc errs).1.states.length =
        acc.length + fuel) := by
  constructor
  · intro σ M rows cols fuel c st gs acc errs h
    simp only [stepping_loop]
    rw [if_neg h]
  · intro σ M rows cols fuel c st gs acc errs hnone
    exact stepping_loop_len_of_none M rows cols fuel c st gs acc errs hnone

/-- Witness for C6: with a stuck-high circuit the capture [[1]] differs
from the prediction [[0]] and the loop keeps stepping. -/
theorem divergence_nonfatal_witness :
    ((capture_game_state constTrue
        (nextTimeTickPulse constTrue ⟨(), ⟨false, false, false, false⟩, 0⟩) 1 1).1 ≠
      [[false]]) ∧
    stepping_loop constTrue 1 1 (0 + 1) 0 ⟨(), ⟨false, false, false, false⟩, 0⟩
        [[false]] [] [] =
      stepping_loop constTrue 1 1 0 (0 + 1)
        (capture_game_state constTrue
          (nextTimeTickPulse constTrue ⟨(), ⟨false, false, false, false⟩, 0⟩) 1 1).2
        (calc_game_state [[false]])
        ([] ++ [(capture_game_state constTrue
          (nextTimeTickPulse constTrue ⟨(), ⟨false, false, false, false⟩, 0⟩) 1 1).1])
        (if score_game_state (capture_game_state constTrue
            (nextTimeTickPulse constTrue ⟨(), ⟨false, false, false, false⟩, 0⟩) 1 1).1
            (calc_game_state [[false]]) = 0 then [] ++ [0 + 1] else []) :=
  ⟨by decide, divergence_nonfatal.1 Unit constTrue 1 1 0 0
    ⟨(), ⟨false, false, false, false⟩, 0⟩ [[false]] [] [] (by decide)⟩

/-- C7: every test case's stepping loop captures at most 50 generations
(the budget of this run profile), and a run whose outcome records no
convergence ran all 50 — terminating in the exhausted-budget state
instead of running forever. -/
theorem generation_budget :
    (∀ (σ : Type) (M : DutModel σ) (rows cols : Nat) (st : TBState σ) (g0 : Grid),
      (run_test M rows cols st g0).1.states.length ≤ 50) ∧
    (∀ (σ : Type) (M : DutModel σ) (rows cols : Nat) (st : TBState σ) (g0 : Grid),
      (run_test M rows cols st g0).1.convergedAt = none →
      (run_test M rows cols st g0).1.states.length = 50) := by
  constructor
  · intro σ M rows cols st g0
    have h := stepping_loop_len_le M rows cols 50 0 (apply_stimulus M st g0) g0 [] []
    simpa [run_test] using h
  · intro σ M rows cols st g0 hnone
    have h := stepping_loop_len_of_none M rows cols 50 0 (apply_stimulus M st g0) g0 [] []
    rw [run_test] at hnone ⊢
    simpa using h hnone

/-- Witness for C7: the stuck-high circuit never matches the prediction
for the all-dead 1×1 stimulus, so the run exhausts its budget with
exactly 50 captured generations. -/
theorem generation_budget_witness :
    ((run_test constTrue 1 1 ⟨(), ⟨false, false, false, false⟩, 0⟩ [[false]]).1.convergedAt =
      none) ∧
    (run_test constTrue 1 1 ⟨(), ⟨false, false, false, false⟩, 0⟩ [[false]]).1.states.length =
      50 :=
  ⟨by decide, generation_budget.2 Unit constTrue 1 1
    ⟨(), ⟨false, false, false, false⟩, 0⟩ [[false]] (by decide)⟩

/-! ## Proofs: the pace slider (claim C9) -/

lemma simPaceOf_eq (y : Int) :
    simPaceOf y =
      20 + Int.floor ((((max 100 (min 400 y) - 100 : Int) : ℚ) / 300) * (500 - 20)) := rfl

/-- C9: the pace mapping of a slider drag.  The pointer's y is clamped
to the track extent [100, 400]; the top (y ≤ 100) yields exactly the
minimum pace 20, the bottom (y ≥ 400) exactly the maximum 500, the map
is monotone in y, every produced pace lies in [20, 500], and while the
slider is held a pointer move stores precisely this pace. -/
theorem pace_slider_props :
    (∀ y : Int, y ≤ 100 → simPaceOf y = 20) ∧
    (∀ y : Int, 400 ≤ y → simPaceOf y = 500) ∧
    (∀ y1 y2 : Int, y1 ≤ y2 → simPaceOf y1 ≤ simPaceOf y2) ∧
    (∀ y : Int, 20 ≤ simPaceOf y ∧ simPaceOf y ≤ 500) ∧
    (∀ (n : Nat) (s : GuiState) (y : Int) (t : Nat), s.isSliderHeld = true →
      guiStep n s (.move y t) = .cont { s with simulation_pace := simPaceOf y }) := by
  have hmono : ∀ y1 y2 : Int, y1 ≤ y2 → simPaceOf y1 ≤ simPaceOf y2 := by
    intro y1 y2 h
    rw [simPaceOf_eq, simPaceOf_eq]
    have hc : max 100 (min 400 y1) - 100 ≤ max 100 (min 400 y2) - 100 := by omega
    have hq : (((max 100 (min 400 y1) - 100 : Int) : ℚ) / 300) * (500 - 20) ≤
        (((max 100 (min 400 y2) - 100 : Int) : ℚ) / 300) * (500 - 20) := by
      gcongr
    exact add_le_add_left (Int.floor_le_floor hq) 20
  refine ⟨?_, ?_, hmono, ?_, ?_⟩
  · intro y hy
    rw [simPaceOf_eq, show max 100 (min 400 y) = (100 : Int) from by omega]
    norm_num
  · intro y hy
    rw [simPaceOf_eq, show max 100 (min 400 y) = (400 : Int) from by omega]
    norm_num
  · intro y
    constructor
    · have h := hmono 100 (max 100 (min 400 y)) (by omega)
      have h100 : simPaceOf 100 = 20 := by
        rw [simPaceOf_eq, show max 100 (min 400 (100 : Int)) = (100 : Int) from by omega]
        norm_num
      have hclamp : simPaceOf (max 100 (min 400 y)) = simPaceOf y := by
        rw [simPaceOf_eq, simPaceOf_eq,
          show max 100 (min 400 (max 100 (min 400 y))) = max 100 (min 400 y) from by omega]
      omega
    · have h := hmono (max 100 (min 400 y)) 400 (by omega)
      have h400 : simPaceOf 400 = 500 := by
        rw [simPaceOf_eq, show max 100 (min 400 (400 : Int)) = (400 : Int) from by omega]
        norm_num
      have hclamp : simPaceOf (max 100 (min 400 y)) = simPaceOf y := by
        rw [simPaceOf_eq, simPaceOf_eq,
          show max 100 (min 400 (max 100 (min 400 y))) = max 100 (min 400 y) from by omega]
      omega
  · intro n s y t h
    simp [guiStep, h]

/-- Witness for C9 at concrete slider positions. -/
theorem pace_slider_props_witness :
    ((100 : Int) ≤ 100 ∧ (400 : Int) ≤ 400 ∧ (250 : Int) ≤ 300) ∧
    (simPaceOf 100 = 20 ∧ simPaceOf 400 = 500 ∧ simPaceOf 250 ≤ simPaceOf 300) :=
  ⟨⟨le_refl _, le_refl _, by decide⟩,
   pace_slider_props.1 100 (le_refl _), pace_slider_props.2.1 400 (le_refl _),
   pace_slider_props.2.2.1 250 300 (by decide)⟩

/-! ## Proofs: the replay index invariant (claim C10) -/

lemma advanceIdx_lt (n i : Nat) (hn : 1 ≤ n) : advanceIdx n i < n := by
  rw [advanceIdx]
  split <;> omega

lemma guiStep_idx_lt (n : Nat) (hn : 1 ≤ n) (s : GuiState) (e : GEvent) (s' : GuiState)
    (hs : s.idx < n) (h : guiStep n s e = .cont s') : s'.idx < n := by
  have hadv := advanceIdx_lt n s.idx hn
  cases e with
  | press tgt t =>
      cases tgt <;> simp only [guiStep] at h <;>
        first
          | (injection h with h; subst h; simpa using hs)
          | cases h
  | release onIter t =>
      simp only [guiStep] at h
      split_ifs at h <;> (injection h with h; subst h) <;>
        first
          | simpa using hadv
          | simpa using hs
  | move y t =>
      simp only [guiStep] at h
      split_ifs at h <;> (injection h with h; subst h) <;> simpa using hs
  | frame t =>
      simp only [guiStep] at h
      split_ifs at h <;> (injection h with h; subst h) <;>
        first
          | simpa using hadv
          | simpa using hs
  | closed =>
      simp only [guiStep] at h
      cases h

lemma processEvents_idx_lt (n : Nat) (hn : 1 ≤ n) :
    ∀ (evs : List GEvent) (s : GuiState), s.idx < n →
      (processEvents n s evs).1.idx < n := by
  intro evs
  induction evs with
  | nil =>
      intro s hs
      simpa [processEvents] using hs
  | cons e rest ih =>
      intro s hs
      rw [processEvents]
      cases hstep : guiStep n s e with
      | cont s' => exact ih s' (guiStep_idx_lt n hn s e s' hs hstep)
      | exit code => simpa using hs

lemma tbProcess_lt (n : Nat) (hn : 1 ≤ n) :
    ∀ (evs : List TbEvent) (i : Nat), i < n → tbProcess n i evs < n := by
  intro evs
  induction evs with
  | nil =>
      intro i hi
      simpa [tbProcess] using hi
  | cons e rest ih =>
      intro i hi
      cases e <;> simp only [tbProcess]
      · exact ih _ (advanceIdx_lt n i hn)
      · exact hi
      · exact ih _ hi
      · exact hi

/-- C10: for a non-empty recorded sequence of n generations, the replay
index starts at 0 and stays in [0, n) across any sequence of events and
frame ticks — every advance wraps to 0 instead of escaping the range —
in both the GUI replay controller and the test-bench variant. -/
theorem replay_index_in_bounds (n : Nat) (hn : 1 ≤ n) :
    initGuiState.idx = 0 ∧
    (∀ evs : List GEvent, (processEvents n initGuiState evs).1.idx < n) ∧
    (∀ (evs : List TbEvent) (i : Nat), i < n → tbProcess n i evs < n) :=
  ⟨rfl,
   fun evs => processEvents_idx_lt n hn evs initGuiState (by simpa [initGuiState] using hn),
   tbProcess_lt n hn⟩

/-- Witness for C10 on a two-generation recording with a click, a hold
frame, and three test-bench presses (the last wrapping back to 0). -/
theorem replay_index_in_bounds_witness :
    (1 ≤ 2 ∧ initGuiState.idx = 0) ∧
    (processEvents 2 initGuiState
      [.press .iter 0, .release true 100, .frame 700]).1.idx < 2 ∧
    tbProcess 2 0 [.pressIter, .pressIter, .pressIter] < 2 :=
  ⟨⟨by decide, (replay_index_in_bounds 2 (by decide)).1⟩,
   (replay_index_in_bounds 2 (by decide)).2.1 [.press .iter 0, .release true 100, .frame 700],
   (replay_index_in_bounds 2 (by decide)).2.2 [.pressIter, .pressIter, .pressIter] 0 (by decide)⟩

/-! ## Proofs: click/hold disambiguation (claim C8) -/

/-- C8 counterexample: the claim fails when the mouse button is released
while the pointer is outside the iterate control.  A press on the
control at t=0 released elsewhere at t=100 (< 500 ms) advances the index
by 0, not by exactly one; and after a press at t=0 released elsewhere at
t=600, a frame at t=1200 still auto-advances the index — the release did
not stop the auto-advance, because only a release inside the control's
bounds clears the held flag. -/
theorem click_hold_counterexample :
    (processEvents 2 initGuiState
      [.press .iter 0, .release false 100]).1.idx = 0 ∧
    (processEvents 2 initGuiState
      [.press .iter 0, .release false 600, .frame 1200]).1.idx = 1 := by
  decide

lemma quiet_preserves (n t0 : Nat) :
    ∀ (mid : List GEvent) (s : GuiState), s.isButtonHeld = true → s.clickStart = t0 →
      (∀ e ∈ mid, isQuietEvent (t0 + 500) e = true) →
      ∃ s' : GuiState,
        (∀ rest, processEvents n s (mid ++ rest) = processEvents n s' rest) ∧
        s'.idx = s.idx ∧ s'.isButtonHeld = true ∧ s'.clickStart = t0 := by
  intro mid
  induction mid with
  | nil =>
      intro s hheld hclick _
      exact ⟨s, fun rest => rfl, rfl, hheld, hclick⟩
  | cons e tail ih =>
      intro s hheld hclick hq
      have hqe : isQuietEvent (t0 + 500) e = true := hq e (by simp)
      have hqt : ∀ e' ∈ tail, isQuietEvent (t0 + 500) e' = true :=
        fun e' he' => hq e' (by simp [he'])
      cases e with
      | frame t =>
          have ht : t < t0 + 500 := by simpa [isQuietEvent] using hqe
          have hcond : ¬(s.isButtonHeld = true ∧ 500 ≤ t - s.clickStart ∧
              s.simulation_pace ≤ ((t - s.holdStart : Nat) : Int)) := by
            rw [hclick]
            intro hcon
            omega
          obtain ⟨s', hproc, hidx, hheld', hclick'⟩ := ih s hheld hclick hqt
          refine ⟨s', ?_, hidx, hheld', hclick'⟩
          intro rest
          rw [List.cons_append, processEvents]
          rw [show guiStep n s (.frame t) = .cont s from by
            simp only [guiStep]
            rw [if_neg hcond]]
          exact hproc rest
      | move y t =>
          by_cases hsl : s.isSliderHeld = true
          · obtain ⟨s', hproc, hidx, hheld', hclick'⟩ :=
              ih { s with simulation_pace := simPaceOf y } hheld hclick hqt
            refine ⟨s', ?_, hidx, hheld', hclick'⟩
            intro rest
            rw [List.cons_append, processEvents]
            rw [show guiStep n s (.move y t) =
                .cont { s with simulation_pace := simPaceOf y } from by
              simp only [guiStep]
              rw [if_pos hsl]]
            exact hproc rest
          · obtain ⟨s', hproc, hidx, hheld', hclick'⟩ := ih s hheld hclick hqt
            refine ⟨s', ?_, hidx, hheld', hclick'⟩
            intro rest
            rw [List.cons_append, processEvents]
            rw [show guiStep n s (.move y t) = .cont s from by
              simp only [guiStep]
              rw [if_neg hsl]]
            exact hproc rest
      | press tgt t => simp [isQuietEvent] at hqe
      | release onIter t => simp [isQuietEvent] at hqe
      | closed => simp [isQuietEvent] at hqe

lemma passive_no_advance (n : Nat) :
    ∀ (rest : List GEvent) (s : GuiState), s.isButtonHeld = false →
      (∀ e ∈ rest, isPassiveEvent e = true) →
      (processEvents n s rest).1.idx = s.idx := by
  intro rest
  induction rest with
  | nil => intro s _ _; rfl
  | cons e tail ih =>
      intro s hheld hp
      have hpe : isPassiveEvent e = true := hp e (by simp)
      have hpt : ∀ e' ∈ tail, isPassiveEvent e' = true :=
        fun e' he' => hp e' (by simp [he'])
      cases e with
      | frame t =>
          have hcond : ¬(s.isButtonHeld = true ∧ 500 ≤ t - s.clickStart ∧
              s.simulation_pace ≤ ((t - s.holdStart : Nat) : Int)) := by
            rw [hheld]
            simp
          rw [processEvents]
          rw [show guiStep n s (.frame t) = .cont s from by
            simp only [guiStep]
            rw [if_neg hcond]]
          exact ih s hheld hpt
      | move y t =>
          by_cases hsl : s.isSliderHeld = true
          · rw [processEvents]
            rw [show guiStep n s (.move y t) =
                .cont { s with simulation_pace := simPaceOf y } from by
              simp only [guiStep]
              rw [if_pos hsl]]
            exact ih _ hheld hpt
          · rw [processEvents]
            rw [show guiStep n s (.move y t) = .cont s from by
              simp only [guiStep]
              rw [if_neg hsl]]
            exact ih s hheld hpt
      | press tgt t => simp [isPassiveEvent] at hpe
      | release onIter t => simp [isPassiveEvent] at hpe
      | closed => simp [isPassiveEvent] at hpe

lemma guiStep_release_true (n : Nat) (s : GuiState) (t : Nat) :
    guiStep n s (.release true t) =
      (if t - s.clickStart < 500
       then .cont { s with isSliderHeld := false, isButtonHeld := false, idx := advanceIdx n s.idx }
       else .cont { s with isSliderHeld := false, isButtonHeld := false }) := rfl

/-- C8 amended: (A) a press on the next/iterate control followed — after
any frames earlier than the 500 ms deadline and any pointer moves — by a
release *within the control's bounds* strictly less than 500 ms later
advances the replay index by exactly one; (B) while the control's held
flag is set, a polling frame at time t auto-advances exactly when at
least 500 ms have passed since the press and at least `PaceSetting` time
units since the last auto-advance, restarting the pace timer, so the
index advances once per `PaceSetting` while held; (C) a release within
the control's bounds stops the auto-advancing immediately — subsequent
frames leave the index unchanged (a release outside the bounds does
not, per the counterexample); (D) each advance is exactly +1, wrapping
to 0 past the end of the recording. -/
theorem click_hold_amended :
    (∀ (n : Nat) (s : GuiState) (t0 : Nat) (mid : List GEvent) (t1 : Nat),
      (∀ e ∈ mid, isQuietEvent (t0 + 500) e = true) → t1 < t0 + 500 →
      (processEvents n s
        (.press .iter t0 :: (mid ++ [.release true t1]))).1.idx =
        advanceIdx n s.idx) ∧
    (∀ (n : Nat) (s : GuiState) (t : Nat), s.isButtonHeld = true →
      guiStep n s (.frame t) =
        (if 500 ≤ t - s.clickStart ∧ s.simulation_pace ≤ ((t - s.holdStart : Nat) : Int)
         then .cont { s with idx := advanceIdx n s.idx, holdStart := t }
         else .cont s)) ∧
    (∀ (n : Nat) (s : GuiState) (t : Nat) (rest : List GEvent),
      (∀ e ∈ rest, isPassiveEvent e = true) →
      (processEvents n s (.release true t :: rest)).1.idx =
        (if t - s.clickStart < 500 then advanceIdx n s.idx else s.idx)) ∧
    (∀ (n i : Nat), i + 1 < n → advanceIdx n i = i + 1) ∧
    (∀ n : Nat, 1 ≤ n → advanceIdx n (n - 1) = 0) := by
  refine ⟨?_, ?_, ?_, ?_, ?_⟩
  · intro n s t0 mid t1 hq ht1
    obtain ⟨s', hproc, hidx, hheld, hclick⟩ :=
      quiet_preserves n t0 mid
        { s with isButtonHeld := true, holdStart := t0, clickStart := t0 } rfl rfl hq
    rw [processEvents]
    rw [show guiStep n s (.press .iter t0) =
      .cont { s with isButtonHeld := true, holdStart := t0, clickStart := t0 } from rfl]
    show (processEvents n
      { s with isButtonHeld := true, holdStart := t0, clickStart := t0 }
      (mid ++ [GEvent.release true t1])).1.idx = advanceIdx n s.idx
    rw [hproc [GEvent.release true t1]]
    have hcond : t1 - s'.clickStart < 500 := by
      rw [hclick]
      omega
    rw [processEvents, guiStep_release_true, if_pos hcond]
    show (processEvents n
      { s' with isSliderHeld := false, isButtonHeld := false, idx := advanceIdx n s'.idx }
      []).1.idx = advanceIdx n s.idx
    rw [processEvents]
    have hidx' : s'.idx = s.idx := by simpa using hidx
    simp [hidx']
  · intro n s t hheld
    simp only [guiStep, hheld, true_and]
  · intro n s t rest hp
    rw [processEvents, guiStep_release_true]
    by_cases hcond : t - s.clickStart < 500
    · rw [if_pos hcond, if_pos hcond]
      show (processEvents n
        { s with isSliderHeld := false, isButtonHeld := false, idx := advanceIdx n s.idx }
        rest).1.idx = advanceIdx n s.idx
      rw [passive_no_advance n rest
        { s with isSliderHeld := false, isButtonHeld := false, idx := advanceIdx n s.idx }
        rfl hp]
    · rw [if_neg hcond, if_neg hcond]
      show (processEvents n
        { s with isSliderHeld := false, isButtonHeld := false } rest).1.idx = s.idx
      rw [passive_no_advance n rest
        { s with isSliderHeld := false, isButtonHeld := false } rfl hp]
  · intro n i h
    rw [advanceIdx, if_neg (by omega)]
  · intro n h
    rw [advanceIdx, if_pos (by omega)]

/-- Witness for the amended C8: a concrete click (press at 0, quiet
frame and move, release on the control at 400 ms) advances index 0 to 1,
and a concrete release on the control at 600 ms stops auto-advance so a
later frame leaves the index unchanged. -/
theorem click_hold_amended_witness :
    ((∀ e ∈ [GEvent.frame 100, GEvent.move 250 150],
        isQuietEvent (0 + 500) e = true) ∧
      400 < 0 + 500 ∧
      (∀ e ∈ [GEvent.frame 1200], isPassiveEvent e = true)) ∧
    ((processEvents 2 initGuiState
        (.press .iter 0 ::
          ([GEvent.frame 100, GEvent.move 250 150] ++ [.release true 400]))).1.idx =
      advanceIdx 2 initGuiState.idx ∧
     (processEvents 2 initGuiState (.release true 600 :: [GEvent.frame 1200])).1.idx =
       (if 600 - initGuiState.clickStart < 500 then advanceIdx 2 initGuiState.idx
        else initGuiState.idx)) :=
  ⟨⟨by decide, by decide, by decide⟩,
   click_hold_amended.1 2 initGuiState 0 [GEvent.frame 100, GEvent.move 250 150] 400
     (by decide) (by decide),
   click_hold_amended.2.2.1 2 initGuiState 600 [GEvent.frame 1200] (by decide)⟩
